import Mathlib

/-!
Verification of the evaluation-artifact caching and lifecycle pipeline of the
maternal-risk dashboard.  The definitions below are a shallow embedding of the
page scripts `pages/2 About the Model.py` and `pages/4 About the Model.py`:
the deterministic splitter (`train_test_split` called with `random_state=7`),
the session-state caching patterns, the evaluation metrics
(`accuracy_score`, `confusion_matrix`) and the explainability artifact
manager (the `ClassifierExplainer` / `explainer.joblib` logic).
Library internals that are not part of this repository (the numpy RNG, the
concrete model) are modelled at their interface: an opaque seeded permutation
and an opaque predict function.
-/

namespace MaternalRisk

variable {α β : Type}

/-- The three values of the `RiskLevel` target column.  In the dataset they
are the strings "high risk", "low risk" and "mid risk"; their alphabetical
order is high < low < mid (this is the order numpy sorting produces). -/
inductive Risk where
  | high : Risk
  | low : Risk
  | mid : Risk
deriving DecidableEq, Fintype

/-- Rank of a risk label in the alphabetical order of the underlying
strings. -/
def riskRank : Risk → Nat
  | Risk.high => 0
  | Risk.low => 1
  | Risk.mid => 2

/-- Alphabetical order on risk labels. -/
def riskLE (a b : Risk) : Prop := riskRank a ≤ riskRank b

instance : DecidableRel riskLE := fun a b => Nat.decLe (riskRank a) (riskRank b)

instance : IsTotal Risk riskLE := ⟨by decide⟩

instance : IsTrans Risk riskLE := ⟨by decide⟩

instance : IsAntisymm Risk riskLE := ⟨by decide⟩

/-- One row of the loaded table: the numeric feature columns (`X`) together
with the target label (`y`).  Feature values are opaque to every claim (the
model is an opaque predict capability), so they are embedded as integers. -/
structure Row where
  features : List Int
  label : Risk
deriving DecidableEq

/-- Pseudo-random generator step standing for the seeded RNG behind
`train_test_split(random_state=7)`: a linear congruential generator.  The
claims depend only on the permutation being a deterministic function of the
seed, which is the documented interface of the library RNG. -/
def lcgNext (s : Nat) : Nat := (1103515245 * s + 12345) % 2147483648

/-- Stream of pseudo-random draws from a seed. -/
def lcgStream : Nat → Nat → List Nat
  | _, 0 => []
  | s, n + 1 => lcgNext s :: lcgStream (lcgNext s) n

/-- Merge two lists by a Boolean order, with an explicit fuel bound so that
the recursion is structural (hence kernel-evaluable). -/
def mergeBy (le : α → α → Bool) : Nat → List α → List α → List α
  | 0, xs, ys => xs ++ ys
  | _ + 1, [], ys => ys
  | _ + 1, x :: xs, [] => x :: xs
  | fuel + 1, x :: xs, y :: ys =>
      if le x y then x :: mergeBy le fuel xs (y :: ys)
      else y :: mergeBy le fuel (x :: xs) ys

/-- Fuelled merge sort (structural recursion on the fuel). -/
def msort (le : α → α → Bool) : Nat → List α → List α
  | 0, l => l
  | _ + 1, [] => []
  | _ + 1, [a] => [a]
  | fuel + 1, a :: b :: l =>
      let m := (a :: b :: l).length / 2
      mergeBy le (a :: b :: l).length
        (msort le fuel ((a :: b :: l).take m))
        (msort le fuel ((a :: b :: l).drop m))

/-- Seeded pseudo-random permutation: tag every element with a pseudo-random
key drawn from the seed and sort by the keys.  This models
`numpy.random.RandomState(seed).permutation` at its interface: a permutation
that is a deterministic function of the seed. -/
def shuffle (l : List α) (seed : Nat) : List α :=
  (msort (fun a b => Nat.ble a.1 b.1) l.length
    ((lcgStream seed l.length).zip l)).map Prod.snd

/-- Number of validation rows: sklearn uses `ceil(n * test_size)`; the float
`test_size` is embedded as the rational `num / den` (0.2 = 1 / 5). -/
def n_test (n num den : Nat) : Nat := (n * num + den - 1) / den

/-- Embedding of `train_test_split(X, y, test_size=num/den, random_state=rs)`
as called on line 98 of page 4 (and line 69 of page 2).  `random_state` is
`some seed` in the code; `none` would fall back to ambient entropy, modelled
by the extra `entropy` argument.  The permutation acts on whole rows, which
is how sklearn keeps `X` and `y` aligned.  Returns `(train, test)`:
the test subset is the first `n_test` entries of the permutation and the
train subset is the rest. -/
def train_test_split (l : List α) (num den : Nat) (random_state : Option Nat)
    (entropy : Nat) : List α × List α :=
  let seed := random_state.getD entropy
  let k := n_test l.length num den
  let p := shuffle l seed
  (p.drop k, p.take k)

/-- sklearn `accuracy_score`: fraction of positions where the prediction
equals the true label. -/
def accuracy_score (yTrue yPred : List Risk) : ℚ :=
  (((yTrue.zip yPred).countP fun p => decide (p.1 = p.2) : Nat) : ℚ) /
    ((yTrue.length : Nat) : ℚ)

/-- `np.unique` on labels: the distinct values in sorted order.  This is the
label ordering sklearn `confusion_matrix` uses when no explicit label list is
passed. -/
def npUnique (ys : List Risk) : List Risk := List.insertionSort riskLE ys.dedup

/-- sklearn `confusion_matrix(y_true, y_pred)`: cell (t, p) counts the
positions whose true label is t and predicted label is p, rows and columns
indexed by the sorted distinct labels of `y_true ++ y_pred`. -/
def confusion_matrix (yTrue yPred : List Risk) : List (List Nat) :=
  let labels := npUnique (yTrue ++ yPred)
  labels.map fun t => labels.map fun p =>
    (yTrue.zip yPred).countP fun pr => decide (pr.1 = t) && decide (pr.2 = p)

/-- Total of all confusion-matrix cells. -/
def cmTotal (m : List (List Nat)) : Nat := (m.map List.sum).sum

/-- Modelled from the spec: the confusion matrix "indexed by (true label,
predicted label) ... with a fixed class ordering {High, Medium, Low}", i.e.
rows and columns in the order High, Medium, Low.  Defined only to compare
that claimed ordering with the ordering the source actually produces. -/
def confusion_matrix_hml (yTrue yPred : List Risk) : List (List Nat) :=
  let labels := [Risk.high, Risk.mid, Risk.low]
  labels.map fun t => labels.map fun p =>
    (yTrue.zip yPred).countP fun pr => decide (pr.1 = t) && decide (pr.2 = p)

/-- `display_results` of page 4 (lines 34 to 66): predict on both subsets,
compute both accuracies and the validation confusion matrix.  Returns
(train accuracy, test accuracy, confusion matrix); the rendering of these
values is outside the core. -/
def display_results (predict : List Int → Risk) (X_train : List (List Int))
    (y_train : List Risk) (X_test : List (List Int)) (y_test : List Risk) :
    ℚ × ℚ × List (List Nat) :=
  let y_pred_test := X_test.map predict
  let y_pred_train := X_train.map predict
  (accuracy_score y_train y_pred_train, accuracy_score y_test y_pred_test,
    confusion_matrix y_test y_pred_test)

/-- The session-state caching pattern of page 4, lines 97 to 107: one slot of
`st.session_state` under a fixed key.  If the key is absent the compute
function runs and its value is stored; if present the stored value is
returned unchanged.  The Bool records whether the compute function ran. -/
def getOrCompute (computeFn : Unit → α) (slot : Option α) :
    α × Option α × Bool :=
  match slot with
  | none =>
      let v := computeFn ()
      (v, some v, true)
  | some v => (v, some v, false)

/-- Iterate `getOrCompute` over n page runs of one session, threading the
session slot.  Returns the final slot, the number of times the compute
function ran, and the value each run observed. -/
def runGetOrCompute (computeFn : Unit → α) : Nat → Option α →
    Option α × Nat × List α
  | 0, slot => (slot, 0, [])
  | n + 1, slot =>
      let c := getOrCompute computeFn slot
      let r := runGetOrCompute computeFn n c.2.1
      (r.1, r.2.1 + (if c.2.2 then 1 else 0), c.1 :: r.2.2)

/-- The persisted artifact file `./explainer.joblib`: absent, present but
unreadable, or readable with a stored artifact. -/
inductive DiskFile (α : Type) where
  | absent : DiskFile α
  | corrupt : DiskFile α
  | good : α → DiskFile α
deriving DecidableEq

/-- The state the artifact manager acts on: the session-state slot under the
key `explainer` plus the durable artifact file. -/
structure ExplState (α : Type) where
  sess : Option α
  disk : DiskFile α
deriving DecidableEq

/-- `ClassifierExplainer.from_file`: succeeds exactly on a readable file. -/
def explainer_from_file : DiskFile α → Except Unit α
  | DiskFile.good a => Except.ok a
  | _ => Except.error ()

/-- The artifact manager of page 4, lines 140 to 146.  `freshArtifact` is the
value the explain capability `ClassifierExplainer(model, X_test, y_test)`
would produce; the Bool in the result records whether that capability was
invoked.  If the session key is absent the code computes a fresh artifact,
stores it in the session slot and dumps it to disk; if the key is present the
code loads the artifact from disk, and an unreadable file propagates as an
error (there is no handler around `from_file`). -/
def getOrBuild (freshArtifact : α) (st : ExplState α) :
    Except Unit (α × ExplState α × Bool) :=
  match st.sess with
  | none =>
      Except.ok (freshArtifact,
        ⟨some freshArtifact, DiskFile.good freshArtifact⟩, true)
  | some _ =>
      match explainer_from_file st.disk with
      | Except.ok e => Except.ok (e, st, false)
      | Except.error u => Except.error u

/-- Modelled from the spec: the getOrBuild algorithm as the spec words it —
first consult the session store and return the in-memory artifact if present;
only if absent attempt the durable-storage load; only if that load fails
compute a fresh artifact, persist it and place it in the session store. -/
def getOrBuildSpec (freshArtifact : α) (st : ExplState α) :
    α × ExplState α × Bool :=
  match st.sess with
  | some e => (e, st, false)
  | none =>
      match explainer_from_file st.disk with
      | Except.ok e => (e, st, false)
      | Except.error _ =>
          (freshArtifact,
            ⟨some freshArtifact, DiskFile.good freshArtifact⟩, true)

/-- Iterate `getOrBuild` over n page runs of one session, threading the
session slot and the artifact file.  Returns the final state, the number of
invocations of the explain capability, and the outcome of each run (a run
whose load fails leaves the state unchanged and reports the error). -/
def runGetOrBuild (freshArtifact : α) : Nat → ExplState α →
    ExplState α × Nat × List (Except Unit α)
  | 0, st => (st, 0, [])
  | n + 1, st =>
      match getOrBuild freshArtifact st with
      | Except.ok (v, st2, invoked) =>
          let r := runGetOrBuild freshArtifact n st2
          (r.1, r.2.1 + (if invoked then 1 else 0), Except.ok v :: r.2.2)
      | Except.error u =>
          let r := runGetOrBuild freshArtifact n st
          (r.1, r.2.1, Except.error u :: r.2.2)

/-- A parsed table: header row and data rows, as `pandas.read_csv` returns
it. -/
structure Table where
  header : List String
  rows : List (List String)
deriving DecidableEq

/-- The CSV source seen by `pd.read_csv`: an unreadable or missing file, a
zero-byte file (pandas raises on it), or parsable content. -/
inductive CsvSource where
  | unreadable : CsvSource
  | emptyFile : CsvSource
  | content : Table → CsvSource
deriving DecidableEq

/-- `pd.read_csv`: raises on an unreadable or zero-byte source, otherwise
returns the parsed table (whatever its columns are). -/
def read_csv : CsvSource → Except Unit Table
  | CsvSource.content t => Except.ok t
  | _ => Except.error ()

/-- `load_data` of both pages (page 4 lines 21 to 25): read the CSV and pair
the frame with the fixed target-column name.  No validation of the parsed
table is performed. -/
def load_data (src : CsvSource) : Except Unit (Table × String) :=
  match read_csv src with
  | Except.ok df => Except.ok (df, "RiskLevel")
  | Except.error u => Except.error u

/-- `LabelEncoder().fit_transform`: each label is replaced by its index in
the sorted distinct labels of the input. -/
def labelEncode (ys : List Risk) : List Nat :=
  let classes := npUnique ys
  ys.map fun y => classes.findIdx fun c => decide (c = y)

/-- The target vector a fit call receives: either the raw risk labels (the
first fit, line 110 of page 4) or the label-encoded integers (the second fit,
line 136). -/
inductive FitLabel where
  | raw : Risk → FitLabel
  | encoded : Nat → FitLabel
deriving DecidableEq

/-- The fit events of one run of `main` of page 4 and which fitted state each
consumer uses.  A fitted state is recorded as the (features, targets) pair
the fit call received. -/
structure MainTrace where
  fits : List (List (List Int) × List FitLabel)
  metricsFit : List (List Int) × List FitLabel
  artifactFit : List (List Int) × List FitLabel
  artifactValidation : List (List Int) × List Nat
deriving DecidableEq

/-- The `main` of page 4 as a trace of its fit calls (lines 94 to 144): split
once, fit on the raw string labels, evaluate (`display_results` uses the
model in that first fitted state), then label-encode the targets, fit the
same model again, and build the explainability artifact from that second
fitted state and the encoded validation targets. -/
def main_trace (d : List Row) : MainTrace :=
  let s := train_test_split d 1 5 (some 7) 0
  let X_train := s.1.map Row.features
  let y_train := s.1.map Row.label
  let X_test := s.2.map Row.features
  let y_test := s.2.map Row.label
  let fit1 := (X_train, y_train.map FitLabel.raw)
  let y_train2 := labelEncode y_train
  let y_test2 := labelEncode y_test
  let fit2 := (X_train, y_train2.map FitLabel.encoded)
  { fits := [fit1, fit2]
    metricsFit := fit1
    artifactFit := fit2
    artifactValidation := (X_test, y_test2) }

/-- The evaluation path of `main` of page 4 (lines 97 to 108): perform the
session split of the dataset at ratio 0.2 with seed 7, then run
`display_results` on the resulting subsets. -/
def main_eval (predict : List Int → Risk) (d : List Row) :
    ℚ × ℚ × List (List Nat) :=
  let s := train_test_split d 1 5 (some 7) 0
  display_results predict (s.1.map Row.features) (s.1.map Row.label)
    (s.2.map Row.features) (s.2.map Row.label)

/-- A concrete 1014-row labeled dataset with all three risk classes, used to
instantiate the end-to-end scenario on explicit data. -/
def demoDataset : List Row :=
  (List.range 1014).map fun i =>
    Row.mk [Int.ofNat i]
      (if i % 3 = 0 then Risk.high else if i % 3 = 1 then Risk.low
        else Risk.mid)

/-- All three risk classes occur in a label list. -/
def allThree (ys : List Risk) : Prop :=
  Risk.high ∈ ys ∧ Risk.low ∈ ys ∧ Risk.mid ∈ ys

instance (ys : List Risk) : Decidable (allThree ys) :=
  inferInstanceAs (Decidable (_ ∧ _ ∧ _))

/-! ### Lemmas about the seeded permutation and the splitter -/

theorem length_lcgStream (s n : Nat) : (lcgStream s n).length = n := by
  induction n generalizing s with
  | zero => rfl
  | succ n ih => simp [lcgStream, ih]

theorem mergeBy_perm (le : α → α → Bool) :
    ∀ (fuel : Nat) (xs ys : List α), (mergeBy le fuel xs ys).Perm (xs ++ ys) := by
  intro fuel
  induction fuel with
  | zero => intro xs ys; simp [mergeBy]
  | succ n ih =>
      intro xs ys
      match xs, ys with
      | [], ys => simp [mergeBy]
      | x :: xs, [] => simp [mergeBy]
      | x :: xs, y :: ys =>
          simp only [mergeBy]
          split
          · simpa using (ih xs (y :: ys)).cons x
          · exact ((ih (x :: xs) ys).cons y).trans List.perm_middle.symm

theorem msort_perm (le : α → α → Bool) :
    ∀ (fuel : Nat) (l : List α), (msort le fuel l).Perm l := by
  intro fuel
  induction fuel with
  | zero => intro l; simp [msort]
  | succ n ih =>
      intro l
      match l with
      | [] => simp [msort]
      | [a] => simp [msort]
      | a :: b :: l =>
          have h1 := mergeBy_perm le (a :: b :: l).length
            (msort le n ((a :: b :: l).take ((a :: b :: l).length / 2)))
            (msort le n ((a :: b :: l).drop ((a :: b :: l).length / 2)))
          have h2 := (ih ((a :: b :: l).take ((a :: b :: l).length / 2))).append
            (ih ((a :: b :: l).drop ((a :: b :: l).length / 2)))
          have h3 : (a :: b :: l).take ((a :: b :: l).length / 2) ++
              (a :: b :: l).drop ((a :: b :: l).length / 2) = a :: b :: l :=
            List.take_append_drop _ _
          simpa only [msort, h3] using h1.trans h2

theorem shuffle_perm (l : List α) (seed : Nat) : (shuffle l seed).Perm l := by
  have h := (msort_perm (fun a b : Nat × α => Nat.ble a.1 b.1) l.length
      ((lcgStream seed l.length).zip l)).map Prod.snd
  have hz : ((lcgStream seed l.length).zip l).map Prod.snd = l :=
    List.map_snd_zip _ _ (by rw [length_lcgStream])
  simpa [shuffle, hz] using h

theorem length_shuffle (l : List α) (seed : Nat) :
    (shuffle l seed).length = l.length := (shuffle_perm l seed).length_eq

theorem train_test_split_length_train (l : List α) (num den : Nat)
    (rs : Option Nat) (e : Nat) :
    (train_test_split l num den rs e).1.length =
      l.length - n_test l.length num den := by
  simp [train_test_split, length_shuffle]

theorem train_test_split_length_test (l : List α) (num den : Nat)
    (rs : Option Nat) (e : Nat) :
    (train_test_split l num den rs e).2.length =
      min (n_test l.length num den) l.length := by
  simp [train_test_split, length_shuffle]

/-- C4: for a fixed dataset, ratio and seed, any two invocations of the
splitter produce identical train and validation subsets: the result does not
depend on the ambient entropy, because `random_state` is fixed to a concrete
seed (7 in the code), so the split is deterministic and reproducible. -/
theorem c4_split_deterministic (rows : List Row) (num den : Nat)
    (e₁ e₂ : Nat) :
    train_test_split rows num den (some 7) e₁ =
      train_test_split rows num den (some 7) e₂ := by
  simp [train_test_split]

/-- C5: the two subsets produced by one split call partition the input: the
validation and training subsets together are a permutation of the input
dataset, and at the level of row positions (the permutation acts on the index
list `range n`) the two sides are disjoint and jointly exhaust all rows. -/
theorem c5_split_partition (rows : List Row) (num den seed entropy : Nat) :
    ((train_test_split rows num den (some seed) entropy).2 ++
      (train_test_split rows num den (some seed) entropy).1).Perm rows ∧
    ((train_test_split (List.range rows.length) num den (some seed)
        entropy).2).Disjoint
      ((train_test_split (List.range rows.length) num den (some seed)
        entropy).1) ∧
    ((train_test_split (List.range rows.length) num den (some seed)
        entropy).2 ++
      (train_test_split (List.range rows.length) num den (some seed)
        entropy).1).Perm (List.range rows.length) := by
  refine ⟨?_, ?_, ?_⟩
  · simp only [train_test_split, List.take_append_drop]
    exact shuffle_perm _ _
  · simp only [train_test_split]
    exact List.disjoint_take_drop
      ((List.nodup_range _).perm (shuffle_perm _ _).symm) le_rfl
  · simp only [train_test_split, List.take_append_drop]
    exact shuffle_perm _ _

/-! ### Lemmas about the evaluation metrics -/

theorem accuracy_score_nonneg (yTrue yPred : List Risk) :
    0 ≤ accuracy_score yTrue yPred :=
  div_nonneg (Nat.cast_nonneg _) (Nat.cast_nonneg _)

theorem accuracy_score_le_one (yTrue yPred : List Risk) :
    accuracy_score yTrue yPred ≤ 1 := by
  have hc : ((yTrue.zip yPred).countP fun p => decide (p.1 = p.2)) ≤
      yTrue.length :=
    le_trans (List.countP_le_length _)
      (by rw [List.length_zip]; exact Nat.min_le_left _ _)
  rcases Nat.eq_zero_or_pos yTrue.length with h | h
  · simp [accuracy_score, h, List.zip_nil_left,
      List.length_eq_zero.mp h]
  · rw [accuracy_score, div_le_one (by exact_mod_cast h)]
    exact_mod_cast hc

theorem sum_map_ite_eq_zero [DecidableEq β] (l : List β) (a : β) (h : a ∉ l) :
    (l.map fun t => if a = t then (1 : Nat) else 0).sum = 0 := by
  induction l with
  | nil => rfl
  | cons b l ih =>
      simp only [List.mem_cons, not_or] at h
      simp [List.map_cons, List.sum_cons, if_neg h.1, ih h.2]

theorem sum_map_ite_eq_one [DecidableEq β] (l : List β) (a : β)
    (hn : l.Nodup) (ha : a ∈ l) :
    (l.map fun t => if a = t then (1 : Nat) else 0).sum = 1 := by
  induction l with
  | nil => simp at ha
  | cons b l ih =>
      rcases List.mem_cons.mp ha with h | h
      · subst h
        simp [sum_map_ite_eq_zero l a (List.nodup_cons.mp hn).1]
      · have hab : a ≠ b := by
          rintro rfl
          exact (List.nodup_cons.mp hn).1 h
        simp [if_neg hab, ih (List.nodup_cons.mp hn).2 h]

theorem sum_map_add (l : List β) (f g : β → Nat) :
    (l.map fun x => f x + g x).sum = (l.map f).sum + (l.map g).sum := by
  induction l with
  | nil => rfl
  | cons b l ih =>
      simp only [List.map_cons, List.sum_cons, ih]
      omega

theorem sum_map_pair_ite (labels : List Risk) (hn : labels.Nodup)
    (x : Risk × Risk) (h1 : x.1 ∈ labels) (h2 : x.2 ∈ labels) :
    (labels.map fun t =>
      (labels.map fun p => if x.1 = t ∧ x.2 = p then (1 : Nat) else 0).sum).sum
      = 1 := by
  have hrow : ∀ t,
      (labels.map fun p => if x.1 = t ∧ x.2 = p then (1 : Nat) else 0).sum
        = if x.1 = t then (1 : Nat) else 0 := by
    intro t
    by_cases ht : x.1 = t
    · subst ht
      simpa using sum_map_ite_eq_one labels x.2 hn h2
    · simp [ht]
  calc (labels.map fun t =>
        (labels.map fun p =>
          if x.1 = t ∧ x.2 = p then (1 : Nat) else 0).sum).sum
      = (labels.map fun t => if x.1 = t then (1 : Nat) else 0).sum :=
        congrArg List.sum (List.map_congr_left fun t _ => hrow t)
    _ = 1 := sum_map_ite_eq_one labels x.1 hn h1

theorem grid_count (pairs : List (Risk × Risk)) (labels : List Risk)
    (hn : labels.Nodup)
    (hc : ∀ pr ∈ pairs, pr.1 ∈ labels ∧ pr.2 ∈ labels) :
    (labels.map fun t => (labels.map fun p =>
      pairs.countP fun pr => decide (pr.1 = t) && decide (pr.2 = p)).sum).sum
      = pairs.length := by
  induction pairs with
  | nil => simp
  | cons x xs ih =>
      have hx := hc x (List.mem_cons_self x xs)
      have hxs : ∀ pr ∈ xs, pr.1 ∈ labels ∧ pr.2 ∈ labels :=
        fun pr h => hc pr (List.mem_cons_of_mem x h)
      have hcell : ∀ t p,
          ((x :: xs).countP fun pr => decide (pr.1 = t) && decide (pr.2 = p))
            = (xs.countP fun pr => decide (pr.1 = t) && decide (pr.2 = p))
              + (if x.1 = t ∧ x.2 = p then (1 : Nat) else 0) := by
        intro t p
        simp [List.countP_cons, Bool.and_eq_true, decide_eq_true_eq]
      have hsplit : (labels.map fun t => (labels.map fun p =>
            (x :: xs).countP fun pr =>
              decide (pr.1 = t) && decide (pr.2 = p)).sum).sum
          = (labels.map fun t => (labels.map fun p =>
              xs.countP fun pr =>
                decide (pr.1 = t) && decide (pr.2 = p)).sum).sum
            + (labels.map fun t => (labels.map fun p =>
                if x.1 = t ∧ x.2 = p then (1 : Nat) else 0).sum).sum := by
        rw [← sum_map_add]
        apply congrArg List.sum
        apply List.map_congr_left
        intro t _
        rw [← sum_map_add]
        apply congrArg List.sum
        apply List.map_congr_left
        intro p _
        exact hcell t p
      rw [hsplit, ih hxs, sum_map_pair_ite labels hn x hx.1 hx.2]
      simp

theorem npUnique_sorted (ys : List Risk) : (npUnique ys).Sorted riskLE :=
  List.sorted_insertionSort riskLE _

theorem mem_npUnique {a : Risk} {ys : List Risk} :
    a ∈ npUnique ys ↔ a ∈ ys := by
  unfold npUnique
  rw [List.mem_insertionSort, List.mem_dedup]

theorem npUnique_nodup (ys : List Risk) : (npUnique ys).Nodup :=
  (List.nodup_dedup _).perm (List.perm_insertionSort riskLE _).symm

theorem npUnique_allThree (ys : List Risk) (h : allThree ys) :
    npUnique ys = [Risk.high, Risk.low, Risk.mid] := by
  refine List.eq_of_perm_of_sorted ?_ (npUnique_sorted ys) (by decide)
  refine List.perm_of_nodup_nodup_toFinset_eq (npUnique_nodup ys)
    (by decide) ?_
  apply Finset.ext
  intro r
  simp only [List.mem_toFinset, mem_npUnique]
  cases r with
  | high => simp [h.1]
  | low => simp [h.2.1]
  | mid => simp [h.2.2]

theorem cmTotal_confusion_matrix (yTrue yPred : List Risk) :
    cmTotal (confusion_matrix yTrue yPred) = (yTrue.zip yPred).length := by
  have hn : (npUnique (yTrue ++ yPred)).Nodup := npUnique_nodup _
  have hc : ∀ pr ∈ yTrue.zip yPred,
      pr.1 ∈ npUnique (yTrue ++ yPred) ∧ pr.2 ∈ npUnique (yTrue ++ yPred) := by
    rintro ⟨a, b⟩ hpr
    have h := List.of_mem_zip hpr
    constructor
    · exact mem_npUnique.mpr (List.mem_append.mpr (Or.inl h.1))
    · exact mem_npUnique.mpr (List.mem_append.mpr (Or.inr h.2))
  simp only [cmTotal, confusion_matrix, List.map_map, Function.comp]
  exact grid_count (yTrue.zip yPred) (npUnique (yTrue ++ yPred)) hn hc

/-- C6 (amended): the validation confusion matrix computed by
`display_results` is a square matrix indexed, in both dimensions, by the
distinct labels occurring among the true and predicted validation labels in
sorted label order (which is High, Low, Medium, not High, Medium, Low); the
total of all cells equals the size of the validation subset; and whenever all
three risk classes occur among the true validation labels the matrix is 3x3
with row and column order exactly High, Low, Medium.  The indexing is a pure
function of the inputs, hence identical across repeated calls. -/
theorem c6_confusion_matrix (predict : List Int → Risk)
    (X_train : List (List Int)) (y_train : List Risk)
    (X_test : List (List Int)) (y_test : List Risk)
    (hlen : X_test.length = y_test.length) :
    cmTotal (display_results predict X_train y_train X_test y_test).2.2
        = y_test.length ∧
    (display_results predict X_train y_train X_test y_test).2.2.length
        = (npUnique (y_test ++ X_test.map predict)).length ∧
    (∀ row ∈ (display_results predict X_train y_train X_test y_test).2.2,
      row.length = (npUnique (y_test ++ X_test.map predict)).length) ∧
    (npUnique (y_test ++ X_test.map predict)).Sorted riskLE ∧
    (allThree y_test →
      npUnique (y_test ++ X_test.map predict)
          = [Risk.high, Risk.low, Risk.mid] ∧
      (display_results predict X_train y_train X_test y_test).2.2.length = 3 ∧
      ∀ row ∈ (display_results predict X_train y_train X_test y_test).2.2,
        row.length = 3) := by
  have hcm : (display_results predict X_train y_train X_test y_test).2.2
      = confusion_matrix y_test (X_test.map predict) := rfl
  have hshape : (confusion_matrix y_test (X_test.map predict)).length
      = (npUnique (y_test ++ X_test.map predict)).length := by
    simp [confusion_matrix]
  have hrows : ∀ row ∈ confusion_matrix y_test (X_test.map predict),
      row.length = (npUnique (y_test ++ X_test.map predict)).length := by
    intro row hrow
    simp only [confusion_matrix, List.mem_map] at hrow
    obtain ⟨t, _, ht⟩ := hrow
    rw [← ht]
    simp
  refine ⟨?_, hcm ▸ hshape, hcm ▸ hrows, npUnique_sorted _, ?_⟩
  · rw [hcm, cmTotal_confusion_matrix, List.length_zip, List.length_map,
      ← hlen, Nat.min_self]
  · intro h3
    have hall : allThree (y_test ++ X_test.map predict) :=
      ⟨List.mem_append.mpr (Or.inl h3.1),
        List.mem_append.mpr (Or.inl h3.2.1),
        List.mem_append.mpr (Or.inl h3.2.2)⟩
    have hu := npUnique_allThree _ hall
    refine ⟨hu, ?_, ?_⟩
    · rw [hcm, hshape, hu]
      rfl
    · intro row hrow
      rw [hcm] at hrow
      rw [hrows row hrow, hu]
      rfl

/-- C6 counterexample: the source orders confusion-matrix rows and columns by
sorted label order High, Low, Medium, not by the claimed fixed ordering High,
Medium, Low.  At true labels [High, Low, Medium, High] and predictions
[High, Low, Medium, Low] the two orderings give different matrices, so the
claim as stated is false of the code. -/
theorem c6_counterexample :
    confusion_matrix [Risk.high, Risk.low, Risk.mid, Risk.high]
        [Risk.high, Risk.low, Risk.mid, Risk.low]
      = [[1, 1, 0], [0, 1, 0], [0, 0, 1]] ∧
    confusion_matrix_hml [Risk.high, Risk.low, Risk.mid, Risk.high]
        [Risk.high, Risk.low, Risk.mid, Risk.low]
      = [[1, 0, 1], [0, 1, 0], [0, 0, 1]] ∧
    confusion_matrix [Risk.high, Risk.low, Risk.mid, Risk.high]
        [Risk.high, Risk.low, Risk.mid, Risk.low]
      ≠ confusion_matrix_hml [Risk.high, Risk.low, Risk.mid, Risk.high]
        [Risk.high, Risk.low, Risk.mid, Risk.low] :=
  ⟨by decide, by decide, by decide⟩

/-- C6 witness: the amended statement instantiated at a concrete validation
set on which every hypothesis is checked by evaluation. -/
theorem c6_confusion_matrix_witness :
    ([[1], [2], [3]] : List (List Int)).length
        = ([Risk.high, Risk.low, Risk.mid] : List Risk).length ∧
    allThree [Risk.high, Risk.low, Risk.mid] ∧
    cmTotal (display_results (fun _ => Risk.high) [] []
        [[1], [2], [3]] [Risk.high, Risk.low, Risk.mid]).2.2 = 3 ∧
    (display_results (fun _ => Risk.high) [] []
        [[1], [2], [3]] [Risk.high, Risk.low, Risk.mid]).2.2.length = 3 :=
  ⟨by decide, by decide,
    (c6_confusion_matrix (fun _ => Risk.high) [] [] [[1], [2], [3]]
      [Risk.high, Risk.low, Risk.mid] (by decide)).1,
    ((c6_confusion_matrix (fun _ => Risk.high) [] [] [[1], [2], [3]]
      [Risk.high, Risk.low, Risk.mid] (by decide)).2.2.2.2 (by decide)).2.1⟩

/-! ### The Session State Store cache-once invariant -/

theorem runGetOrCompute_some (computeFn : Unit → α) (v : α) :
    ∀ n, runGetOrCompute computeFn n (some v)
      = (some v, 0, List.replicate n v) := by
  intro n
  induction n with
  | zero => rfl
  | succ n ih => simp [runGetOrCompute, getOrCompute, ih, List.replicate_succ]

/-- C3: the session-state get-or-compute pattern invokes its compute function
at most once per session: over any number n of runs starting from an empty
slot, the compute function runs exactly `min 1 n` times (once as soon as
there is at least one run, never again), every run observes the single
computed value, and a slot that is already filled never triggers the compute
function at all. -/
theorem c3_compute_once (computeFn : Unit → α) (n : Nat) (v : α) :
    runGetOrCompute computeFn n none
      = (if n = 0 then none else some (computeFn ()), min 1 n,
          List.replicate n (computeFn ())) ∧
    runGetOrCompute computeFn n (some v)
      = (some v, 0, List.replicate n v) := by
  refine ⟨?_, runGetOrCompute_some computeFn v n⟩
  cases n with
  | zero => rfl
  | succ m =>
      have hmin : min 1 (m + 1) = 1 :=
        Nat.min_eq_left (Nat.succ_le_succ (Nat.zero_le m))
      simp [runGetOrCompute, getOrCompute, runGetOrCompute_some,
        List.replicate_succ, hmin]

/-! ### The Explainability Artifact Manager -/

theorem runGetOrBuild_cached (freshArtifact : α) :
    ∀ n, runGetOrBuild freshArtifact n
        ⟨some freshArtifact, DiskFile.good freshArtifact⟩
      = (⟨some freshArtifact, DiskFile.good freshArtifact⟩, 0,
          List.replicate n (Except.ok freshArtifact)) := by
  intro n
  induction n with
  | zero => rfl
  | succ n ih =>
      simp [runGetOrBuild, getOrBuild, explainer_from_file, ih,
        List.replicate_succ]

/-- C1 (amended): the lookup order of the artifact manager is the reverse of
the claimed one.  When the session key is absent, `getOrBuild` computes a
fresh artifact via the explain capability without consulting durable storage,
places it in the session store and persists it; when the session key is
present, it does not return the in-memory value but loads the artifact from
durable storage, and a failing load propagates as an error. -/
theorem c1_lookup_order (freshArtifact : α) (st : ExplState α) :
    (st.sess = none →
      getOrBuild freshArtifact st
        = Except.ok (freshArtifact,
            ⟨some freshArtifact, DiskFile.good freshArtifact⟩, true)) ∧
    (∀ x, st.sess = some x →
      getOrBuild freshArtifact st
        = (explainer_from_file st.disk).map fun e => (e, st, false)) := by
  constructor
  · intro h
    simp [getOrBuild, h]
  · intro x h
    cases hd : st.disk with
    | absent => simp [getOrBuild, h, explainer_from_file, hd, Except.map]
    | corrupt => simp [getOrBuild, h, explainer_from_file, hd, Except.map]
    | good a => simp [getOrBuild, h, explainer_from_file, hd, Except.map]

/-- C1 witness: the amended behavior at concrete states covering both the
absent and the present session key. -/
theorem c1_lookup_order_witness :
    ((⟨none, DiskFile.good 0⟩ : ExplState Nat).sess = none ∧
      getOrBuild 1 (⟨none, DiskFile.good 0⟩ : ExplState Nat)
        = Except.ok (1, ⟨some 1, DiskFile.good 1⟩, true)) ∧
    ((⟨some 5, DiskFile.good 0⟩ : ExplState Nat).sess = some 5 ∧
      getOrBuild 1 (⟨some 5, DiskFile.good 0⟩ : ExplState Nat)
        = Except.ok (0, ⟨some 5, DiskFile.good 0⟩, false)) :=
  ⟨⟨rfl, (c1_lookup_order 1 (⟨none, DiskFile.good 0⟩ : ExplState Nat)).1 rfl⟩,
    ⟨rfl, by
      have h := (c1_lookup_order 1
        (⟨some 5, DiskFile.good 0⟩ : ExplState Nat)).2 5 rfl
      simpa [explainer_from_file, Except.map] using h⟩⟩

/-- C1 counterexample: with the session key absent and a readable persisted
artifact 0 on disk, the claimed algorithm would load 0 from storage without
invoking the explain capability, but the source computes the fresh artifact
1, reports the capability as invoked, and overwrites the persisted file —
so the claimed lookup order (session store, then durable storage, then
compute) is false of the code. -/
theorem c1_counterexample :
    getOrBuild 1 (⟨none, DiskFile.good 0⟩ : ExplState Nat)
      = Except.ok (1, ⟨some 1, DiskFile.good 1⟩, true) ∧
    getOrBuildSpec 1 (⟨none, DiskFile.good 0⟩ : ExplState Nat)
      = (0, ⟨none, DiskFile.good 0⟩, false) ∧
    getOrBuild 1 (⟨none, DiskFile.good 0⟩ : ExplState Nat)
      ≠ Except.ok (getOrBuildSpec 1 (⟨none, DiskFile.good 0⟩ : ExplState Nat)) :=
  ⟨rfl, rfl, fun h => absurd (Except.ok.inj h) (by decide)⟩

/-- C2: within one session the expensive explainability computation runs at
most once.  Starting from an empty session slot and any initial disk state,
over n ≥ 1 runs the explain capability is invoked exactly once (on the first
run, which also persists the artifact), every run succeeds and observes the
same artifact value, and the final session slot holds exactly that value, so
later runs return the value the session store caches. -/
theorem c2_explain_once (freshArtifact : α) (d : DiskFile α) (n : Nat)
    (hn : 1 ≤ n) :
    runGetOrBuild freshArtifact n ⟨none, d⟩
      = (⟨some freshArtifact, DiskFile.good freshArtifact⟩, 1,
          List.replicate n (Except.ok freshArtifact)) := by
  cases n with
  | zero => exact absurd hn (by decide)
  | succ m =>
      simp [runGetOrBuild, getOrBuild, runGetOrBuild_cached,
        List.replicate_succ]

/-- C2 witness: three runs of one fresh session compute exactly once and all
observe the cached artifact. -/
theorem c2_explain_once_witness :
    1 ≤ 3 ∧
    runGetOrBuild (0 : Nat) 3 ⟨none, DiskFile.absent⟩
      = (⟨some 0, DiskFile.good 0⟩, 1,
          List.replicate 3 (Except.ok 0)) :=
  ⟨by decide, c2_explain_once 0 DiskFile.absent 3 (by decide)⟩

/-- C8 (amended): when the artifact manager consults the persisted artifact
(which happens exactly when the session key is present) and the file is
absent or unreadable, the failure is not recoverable: the load error
propagates and aborts the run, and the explain capability is not invoked, so
no recomputation occurs. -/
theorem c8_storage_error_aborts (freshArtifact x : α) :
    getOrBuild freshArtifact ⟨some x, DiskFile.corrupt⟩
      = Except.error () ∧
    getOrBuild freshArtifact ⟨some x, DiskFile.absent⟩
      = Except.error () :=
  ⟨rfl, rfl⟩

/-- C8 counterexample: with the artifact 3 cached in the session and a
corrupt persisted file, the run errors instead of recomputing: the result
carries no artifact and the explain capability is not invoked, contradicting
the claim that an unreadable persisted artifact is treated as a recoverable
cache miss that triggers recomputation. -/
theorem c8_counterexample :
    getOrBuild (5 : Nat) ⟨some 3, DiskFile.corrupt⟩ = Except.error () ∧
    getOrBuild (5 : Nat) ⟨some 3, DiskFile.corrupt⟩
      ≠ Except.ok (5, ⟨some 5, DiskFile.good 5⟩, true) :=
  ⟨rfl, fun h => Except.noConfusion h⟩

/-! ### The Dataset Loader -/

/-- C9 (amended): `load_data` fails exactly when the source cannot be read or
parsed (a missing or unreadable file, or a zero-byte file); it performs no
validation of the parsed table, so a table lacking the RiskLevel target
column, or a table with zero data rows, is returned successfully together
with the fixed target-column name. -/
theorem c9_load_data (src : CsvSource) :
    (load_data src = Except.error ()
      ↔ src = CsvSource.unreadable ∨ src = CsvSource.emptyFile) ∧
    (∀ t, src = CsvSource.content t
      → load_data src = Except.ok (t, "RiskLevel")) := by
  cases src with
  | unreadable => exact ⟨by simp [load_data, read_csv], by intro t h; cases h⟩
  | emptyFile => exact ⟨by simp [load_data, read_csv], by intro t h; cases h⟩
  | content t =>
      refine ⟨by simp [load_data, read_csv], ?_⟩
      intro u h
      cases h
      rfl

/-- C9 witness: the amended statement at a concrete readable source. -/
theorem c9_load_data_witness :
    CsvSource.content (Table.mk ["Age"] [["25"]])
        = CsvSource.content (Table.mk ["Age"] [["25"]]) ∧
    load_data (CsvSource.content (Table.mk ["Age"] [["25"]]))
      = Except.ok (Table.mk ["Age"] [["25"]], "RiskLevel") :=
  ⟨rfl, (c9_load_data (CsvSource.content (Table.mk ["Age"] [["25"]]))).2
    (Table.mk ["Age"] [["25"]]) rfl⟩

/-- C9 counterexample: a parsable table that is malformed in the claimed
sense — it has no RiskLevel column (and also no data rows) — is loaded
successfully rather than failing, so the claim that load fails on a missing
target column or an empty table is false of the code. -/
theorem c9_counterexample :
    load_data (CsvSource.content (Table.mk ["Age"] []))
      = Except.ok (Table.mk ["Age"] [], "RiskLevel") ∧
    ("RiskLevel" ∈ (Table.mk ["Age"] ([] : List (List String))).header
      → False) ∧
    (Table.mk ["Age"] ([] : List (List String))).rows.length = 0 :=
  ⟨rfl, by decide, rfl⟩

/-! ### The double-fit trace of main and the end-to-end scenario -/

theorem length_labelEncode (ys : List Risk) :
    (labelEncode ys).length = ys.length := by
  simp [labelEncode]

/-- C10: every run of `main` on page 4 fits the model twice on the same
training features: the first fit receives the raw risk labels and is the
fitted state `display_results` evaluates (accuracies and confusion matrix);
the second fit receives the label-encoded integer targets and is the fitted
state the explainability artifact is computed from.  For any dataset with at
least two rows the training set is nonempty and the two fitted states are
different, so the reported metrics and the artifact derive from different
fitted states. -/
theorem c10_two_fits (d : List Row) (h2 : 2 ≤ d.length) :
    (main_trace d).fits
        = [(main_trace d).metricsFit, (main_trace d).artifactFit] ∧
    (main_trace d).metricsFit.1 = (main_trace d).artifactFit.1 ∧
    (main_trace d).metricsFit ≠ (main_trace d).artifactFit := by
  refine ⟨rfl, rfl, ?_⟩
  intro heq
  have hy := congrArg Prod.snd heq
  simp only [main_trace] at hy
  have h1 : 1 ≤ (train_test_split d 1 5 (some 7) 0).1.length := by
    rw [train_test_split_length_train]
    unfold n_test
    omega
  cases htr : (train_test_split d 1 5 (some 7) 0).1 with
  | nil => rw [htr] at h1; simp at h1
  | cons r rest =>
      rw [htr] at hy
      simp [labelEncode] at hy

/-- C10 witness: the double-fit property at a concrete two-row dataset. -/
theorem c10_two_fits_witness :
    2 ≤ ([Row.mk [0] Risk.high, Row.mk [1] Risk.low] : List Row).length ∧
    (main_trace [Row.mk [0] Risk.high, Row.mk [1] Risk.low]).fits
      = [(main_trace [Row.mk [0] Risk.high, Row.mk [1] Risk.low]).metricsFit,
          (main_trace [Row.mk [0] Risk.high, Row.mk [1] Risk.low]).artifactFit] ∧
    (main_trace [Row.mk [0] Risk.high, Row.mk [1] Risk.low]).metricsFit
      ≠ (main_trace [Row.mk [0] Risk.high, Row.mk [1] Risk.low]).artifactFit :=
  ⟨by decide,
    (c10_two_fits [Row.mk [0] Risk.high, Row.mk [1] Risk.low] (by decide)).1,
    (c10_two_fits [Row.mk [0] Risk.high, Row.mk [1] Risk.low] (by decide)).2.2⟩

theorem confusion_matrix_length (yTrue yPred : List Risk) :
    (confusion_matrix yTrue yPred).length
      = (npUnique (yTrue ++ yPred)).length := by
  simp [confusion_matrix]

theorem confusion_matrix_row_length (yTrue yPred : List Risk) :
    ∀ row ∈ confusion_matrix yTrue yPred,
      row.length = (npUnique (yTrue ++ yPred)).length := by
  intro row hrow
  simp only [confusion_matrix, List.mem_map] at hrow
  obtain ⟨t, _, ht⟩ := hrow
  rw [← ht]
  simp

/-- C7: for every dataset of 1014 labeled rows, the split at ratio 0.8/0.2
with seed 7 deterministically yields 811 training rows and 203 validation
rows; for every predict capability the train and validation accuracies lie
in [0,1]; the confusion-matrix cells are natural numbers (hence
non-negative) and total 203; and whenever all three risk classes occur among
the validation labels the matrix is 3x3. -/
theorem c7_end_to_end (d : List Row) (h14 : d.length = 1014) :
    (train_test_split d 1 5 (some 7) 0).1.length = 811 ∧
    (train_test_split d 1 5 (some 7) 0).2.length = 203 ∧
    ∀ predict : List Int → Risk,
      (0 ≤ (main_eval predict d).1 ∧ (main_eval predict d).1 ≤ 1) ∧
      (0 ≤ (main_eval predict d).2.1 ∧ (main_eval predict d).2.1 ≤ 1) ∧
      cmTotal (main_eval predict d).2.2 = 203 ∧
      (allThree ((train_test_split d 1 5 (some 7) 0).2.map Row.label) →
        (main_eval predict d).2.2.length = 3 ∧
        ∀ row ∈ (main_eval predict d).2.2, row.length = 3) := by
  have htr : (train_test_split d 1 5 (some 7) 0).1.length = 811 := by
    rw [train_test_split_length_train, h14]
    norm_num [n_test]
  have hva : (train_test_split d 1 5 (some 7) 0).2.length = 203 := by
    rw [train_test_split_length_test, h14]
    norm_num [n_test]
  refine ⟨htr, hva, ?_⟩
  intro predict
  have hme : (main_eval predict d).2.2
      = confusion_matrix
          ((train_test_split d 1 5 (some 7) 0).2.map Row.label)
          (((train_test_split d 1 5 (some 7) 0).2.map Row.features).map
            predict) := rfl
  refine ⟨⟨accuracy_score_nonneg _ _, accuracy_score_le_one _ _⟩,
    ⟨accuracy_score_nonneg _ _, accuracy_score_le_one _ _⟩, ?_, ?_⟩
  · rw [hme, cmTotal_confusion_matrix, List.length_zip, List.length_map,
      List.length_map, List.length_map, hva]
    exact Nat.min_self 203
  · intro h3
    have hall : allThree
        (((train_test_split d 1 5 (some 7) 0).2.map Row.label) ++
          (((train_test_split d 1 5 (some 7) 0).2.map Row.features).map
            predict)) :=
      ⟨List.mem_append.mpr (Or.inl h3.1),
        List.mem_append.mpr (Or.inl h3.2.1),
        List.mem_append.mpr (Or.inl h3.2.2)⟩
    have hu := npUnique_allThree _ hall
    constructor
    · rw [hme, confusion_matrix_length, hu]
      rfl
    · intro row hrow
      rw [hme] at hrow
      rw [confusion_matrix_row_length _ _ row hrow, hu]
      rfl

set_option maxRecDepth 10000 in
set_option maxHeartbeats 2000000 in
/-- C7 witness: the end-to-end scenario at a concrete 1014-row dataset whose
validation subset is checked by evaluation to contain all three classes. -/
theorem c7_end_to_end_witness :
    demoDataset.length = 1014 ∧
    allThree ((train_test_split demoDataset 1 5 (some 7) 0).2.map
      Row.label) ∧
    (train_test_split demoDataset 1 5 (some 7) 0).1.length = 811 ∧
    (train_test_split demoDataset 1 5 (some 7) 0).2.length = 203 ∧
    cmTotal (main_eval (fun _ => Risk.high) demoDataset).2.2 = 203 ∧
    (main_eval (fun _ => Risk.high) demoDataset).2.2.length = 3 := by
  have h14 : demoDataset.length = 1014 := by decide
  have hall : allThree ((train_test_split demoDataset 1 5 (some 7) 0).2.map
      Row.label) := by decide
  have h := c7_end_to_end demoDataset h14
  exact ⟨h14, hall, h.1, h.2.1,
    (h.2.2 (fun _ => Risk.high)).2.2.1,
    ((h.2.2 (fun _ => Risk.high)).2.2.2 hall).1⟩

end MaternalRisk
